import Mathlib

/-
Verification development for the mcp_memory_client Python package
(src/clients/python/src/mcp_memory_client/).  The definitions below are a
shallow embedding of client.py, exceptions.py and models.py:

  - toCamelCase          embeds _to_camel_case (str.split("_") + str.title joins)
  - convObj / convList   embed _convert_keys_to_camel (skip_keys threaded through)
  - buildRequest         embeds the JSON-RPC envelope built in MCPMemoryClient._call
  - nextId / runClient   embed _next_id and the per-call id allocation
  - processResponse      embeds the try/except ladder and error-envelope branch of _call
  - RPCError and its predicates embed exceptions.RPCError
  - decodeGlobalValue    embeds pydantic validation of models.GlobalValue
  - searchParams / updateParams / strftimeZ embed the facade methods search,
    update and the helper _format_datetime

JSON values are represented by a mutual inductive so that all functions are
structural and kernel-computable.  Objects are insertion-ordered key/value
lists with Python-dict assignment semantics (insertKV updates in place).
-/

set_option autoImplicit false

mutual

inductive Json where
  | null : Json
  | bool : Bool → Json
  | num : Int → Json
  | str : String → Json
  | arr : JsonArr → Json
  | obj : JsonObj → Json

inductive JsonArr where
  | nil : JsonArr
  | cons : Json → JsonArr → JsonArr

inductive JsonObj where
  | nil : JsonObj
  | cons : String → Json → JsonObj → JsonObj

end

/-- Association lookup, as Python dict indexing / `in` tests. -/
def JsonObj.lookup : JsonObj → String → Option Json
  | .nil, _ => none
  | .cons k v t, key => if k = key then some v else JsonObj.lookup t key

/-- The keys of an object in insertion order, as `list(d.keys())`. -/
def JsonObj.keys : JsonObj → List String
  | .nil => []
  | .cons k _ t => k :: JsonObj.keys t

/-- Python dict assignment `d[k] = v`: update in place if the key exists,
    otherwise append at the end. -/
def JsonObj.insertKV : JsonObj → String → Json → JsonObj
  | .nil, k, v => .cons k v .nil
  | .cons k0 v0 t, k, v =>
      if k0 = k then .cons k0 v t else .cons k0 v0 (JsonObj.insertKV t k v)

/-- Membership of a string in a list of strings, as the Python test
    `key in skip_keys`. -/
def memStr (k : String) : List String → Bool
  | [] => false
  | s :: t => (k == s) || memStr k t

/-- Python `snake_str.split("_")` on the character list: splits at every
    underscore, keeping empty components. -/
def splitU : List Char → List (List Char)
  | [] => [[]]
  | c :: cs =>
      let r := splitU cs
      if c = '_' then [] :: r
      else
        match r with
        | [] => [[c]]
        | h :: t => (c :: h) :: t

/-- Python `str.title()` for ASCII strings: the first cased character of each
    run of letters is uppercased, later letters of the run are lowercased,
    other characters pass through and restart a word. -/
def pyTitleGo : Bool → List Char → List Char
  | _, [] => []
  | prev, c :: cs =>
      if c.isAlpha then
        (if prev then c.toLower else c.toUpper) :: pyTitleGo true cs
      else
        c :: pyTitleGo false cs

def pyTitle (l : List Char) : List Char := pyTitleGo false l

/-- Embeds `_to_camel_case` (client.py lines 22-25):
    `components = snake_str.split("_");
     return components[0] + "".join(x.title() for x in components[1:])`. -/
def toCamelCase (s : String) : String :=
  match splitU s.data with
  | [] => ""
  | h :: t => ⟨h ++ (t.map pyTitle).flatten⟩

/-- The default skip set of `_convert_keys_to_camel`:
    `skip_keys = {"metadata", "value"}`. -/
def defaultSkip : List String := ["metadata", "value"]

mutual

/-- The value transform of `_convert_keys_to_camel` (client.py 46-57) for a
    key not in `skip_keys`: recurse into dicts, map over lists, leave other
    values as given. -/
def convValue (skip : List String) : Json → Json
  | .obj kvs => .obj (convObj skip kvs .nil)
  | .arr xs => .arr (convList skip xs)
  | j => j

/-- One element of a list value: converted only when it is a dict
    (client.py 52-55). -/
def convItem (skip : List String) : Json → Json
  | .obj kvs => .obj (convObj skip kvs .nil)
  | j => j

def convList (skip : List String) : JsonArr → JsonArr
  | .nil => .nil
  | .cons x t => .cons (convItem skip x) (convList skip t)

/-- The loop of `_convert_keys_to_camel`: `result = {}` then for each
    `key, value` pair `result[_to_camel_case(key)] = ...`, keeping the value
    untouched when `key in skip_keys`. -/
def convObj (skip : List String) : JsonObj → JsonObj → JsonObj
  | .nil, acc => acc
  | .cons k v t, acc =>
      convObj skip t
        (acc.insertKV (toCamelCase k) (if memStr k skip then v else convValue skip v))

end

/-- `_convert_keys_to_camel(params)` as invoked from `_call` with the default
    skip set. -/
def convertKeysToCamel (kvs : JsonObj) : JsonObj := convObj defaultSkip kvs .nil

mutual

/-- Spec companion, written from the spec sentence: values reachable under the
    keys `metadata` and `value` are passed through unmodified; transcoding
    recurses into nested mappings and into each mapping found inside ordered
    sequences; non-mapping, non-sequence values are left as-is. -/
def specValue : Json → Json
  | .obj kvs => .obj (specObj kvs .nil)
  | .arr xs => .arr (specList xs)
  | j => j

/-- Spec companion: an element of an ordered sequence — only mappings found
    inside the sequence are transcoded. -/
def specItem : Json → Json
  | .obj kvs => .obj (specObj kvs .nil)
  | j => j

def specList : JsonArr → JsonArr
  | .nil => .nil
  | .cons x t => .cons (specItem x) (specList t)

/-- Spec companion: every key is transcoded from snake_case to camelCase,
    except that the subtree under a key equal to `metadata` or `value` is
    emitted unmodified. -/
def specObj : JsonObj → JsonObj → JsonObj
  | .nil, acc => acc
  | .cons k v t, acc =>
      specObj t
        (acc.insertKV (toCamelCase k)
          (if k = "metadata" ∨ k = "value" then v else specValue v))

end

/-- Spec companion for the whole params mapping. -/
def specTranscode (kvs : JsonObj) : JsonObj := specObj kvs .nil

lemma memStr_defaultSkip (k : String) :
    memStr k defaultSkip = decide (k = "metadata" ∨ k = "value") := by
  by_cases h1 : k = "metadata" <;> by_cases h2 : k = "value" <;>
    simp [memStr, defaultSkip, h1, h2]

mutual

lemma convValue_eq_specValue : (v : Json) → convValue defaultSkip v = specValue v
  | .null => rfl
  | .bool _ => rfl
  | .num _ => rfl
  | .str _ => rfl
  | .arr xs => congrArg Json.arr (convList_eq_specList xs)
  | .obj kvs => congrArg Json.obj (convObj_eq_specObj kvs .nil)

lemma convItem_eq_specItem : (x : Json) → convItem defaultSkip x = specItem x
  | .null => rfl
  | .bool _ => rfl
  | .num _ => rfl
  | .str _ => rfl
  | .arr _ => rfl
  | .obj kvs => congrArg Json.obj (convObj_eq_specObj kvs .nil)

lemma convList_eq_specList : (xs : JsonArr) → convList defaultSkip xs = specList xs
  | .nil => rfl
  | .cons x t => by
      have hx := convItem_eq_specItem x
      have ht := convList_eq_specList t
      simp [convList, specList, hx, ht]

lemma convObj_eq_specObj :
    (kvs : JsonObj) → (acc : JsonObj) → convObj defaultSkip kvs acc = specObj kvs acc
  | .nil, _ => rfl
  | .cons k v t, acc => by
      have hval : (if memStr k defaultSkip then v else convValue defaultSkip v)
          = (if k = "metadata" ∨ k = "value" then v else specValue v) := by
        by_cases h1 : k = "metadata" <;> by_cases h2 : k = "value"
        · simp [memStr, defaultSkip, h1, h2, beq_iff_eq]
        · simp [memStr, defaultSkip, h1, h2, beq_iff_eq]
        · simp [memStr, defaultSkip, h1, h2, beq_iff_eq]
        · simp [memStr, defaultSkip, h1, h2, beq_iff_eq]
          exact convValue_eq_specValue v
      simp only [convObj, specObj, hval]
      exact convObj_eq_specObj t _

end

/-- Embeds `MCPMemoryClient._next_id` (client.py 89-92): increment the stored
    counter, return the new value.  The counter starts at 0 in `__init__`. -/
def nextId (s : Nat) : Nat × Nat := (s + 1, s + 1)

/-- Embeds the envelope built in `_call` (client.py 110-117): the dict literal
    `{jsonrpc, id, method}` followed, only when `params is not None`, by
    `request_body["params"] = _convert_keys_to_camel(params)`. -/
def buildRequest (rid : Nat) (method : String) (params : Option JsonObj) : JsonObj :=
  let base :=
    ((JsonObj.nil.insertKV "jsonrpc" (.str "2.0")).insertKV "id"
        (.num rid)).insertKV "method" (.str method)
  match params with
  | none => base
  | some p => base.insertKV "params" (.obj (convertKeysToCamel p))

/-- Embeds `exceptions.RPCError` (exceptions.py 23-56).  The fields hold the
    decoded JSON values that `_call` passes to the constructor. -/
structure RPCError where
  code : Json
  message : Json
  data : Option Json

/-- `RPCError.is_invalid_params`: code is -32602. -/
def RPCError.is_invalid_params (e : RPCError) : Prop := e.code = .num (-32602)

/-- `RPCError.is_method_not_found`: code is -32601. -/
def RPCError.is_method_not_found (e : RPCError) : Prop := e.code = .num (-32601)

/-- `RPCError.is_not_found`: code is -32001. -/
def RPCError.is_not_found (e : RPCError) : Prop := e.code = .num (-32001)

/-- `RPCError.is_api_key_missing`: code is -32002. -/
def RPCError.is_api_key_missing (e : RPCError) : Prop := e.code = .num (-32002)

/-- The invalid-key predicate of `exceptions.RPCError` (code -32003,
    raised for global keys lacking the required leading segment). -/
def RPCError.is_invalid_key_pfx (e : RPCError) : Prop := e.code = .num (-32003)

/-- The exceptions propagating out of `_call`: the taxonomy of exceptions.py
    (`ConnectionError`, `TimeoutError`, the generic `MCPMemoryError` for a
    non-2xx status or invalid JSON body, and `RPCError`), plus the
    `AttributeError` that escapes `_call` uncaught when the error member of
    the body is not a dict — `error.get` is then called on a value with no
    `get` attribute (client.py 137-143), so no exception of the exceptions.py
    taxonomy is raised there. -/
inductive ClientError where
  | connectionError : ClientError
  | timeoutErr : ClientError
  | memoryError : ClientError
  | rpc : RPCError → ClientError
  | uncaughtAttrError : ClientError

/-- Outcome of the HTTP round trip in `_call`: the exception classes the
    code distinguishes (`httpx.ConnectError`, `httpx.TimeoutException`,
    `httpx.HTTPStatusError` raised by `raise_for_status` on a non-2xx status,
    `ValueError` from `response.json()`), or the decoded JSON-RPC response
    object. -/
inductive HttpOutcome where
  | connectError : HttpOutcome
  | timeoutError : HttpOutcome
  | statusError : HttpOutcome
  | invalidJson : HttpOutcome
  | body : JsonObj → HttpOutcome

/-- Embeds the try/except ladder and the error/result branches of `_call`
    (client.py 119-145).  When the body has an error member that is a dict,
    `error.get("code", -32603)` / `error.get("message", "Unknown error")` /
    `error.get("data")` feed the raised `RPCError`; when the error member is
    present but not a dict, `error.get` raises an `AttributeError` that
    nothing in `_call` catches. -/
def processResponse : HttpOutcome → Except ClientError (Option Json)
  | .connectError => .error .connectionError
  | .timeoutError => .error .timeoutErr
  | .statusError => .error .memoryError
  | .invalidJson => .error .memoryError
  | .body kvs =>
      match kvs.lookup "error" with
      | some (.obj ekvs) =>
          .error (.rpc
            { code := (ekvs.lookup "code").getD (.num (-32603))
              message := (ekvs.lookup "message").getD (.str "Unknown error")
              data := ekvs.lookup "data" })
      | some _ => .error .uncaughtAttrError
      | none => .ok (kvs.lookup "result")

/-- One `_call`: the id is allocated by `_next_id` before the request is sent,
    so it advances regardless of the outcome.  Returns the envelope, the new
    counter, and the decoded result or raised error. -/
def clientStep (s : Nat) (method : String) (params : Option JsonObj)
    (o : HttpOutcome) : JsonObj × Nat × Except ClientError (Option Json) :=
  (buildRequest (nextId s).1 method params, (nextId s).2, processResponse o)

/-- A sequence of calls on one client instance: each list entry is the method,
    params and HTTP outcome of one call; the result collects the request
    envelopes in order. -/
def runClient : Nat → List (String × Option JsonObj × HttpOutcome) → List JsonObj
  | _, [] => []
  | s, (m, p, o) :: rest =>
      (clientStep s m p o).1 :: runClient (clientStep s m p o).2.1 rest

lemma buildRequest_id (rid : Nat) (m : String) (p : Option JsonObj) :
    (buildRequest rid m p).lookup "id" = some (.num rid) := by
  cases p <;> rfl

lemma runClient_ids (calls : List (String × Option JsonObj × HttpOutcome)) :
    ∀ s : Nat, (runClient s calls).map (fun e => JsonObj.lookup e "id")
      = (List.range' (s + 1) calls.length).map
          (fun i : Nat => some (Json.num (Int.ofNat i))) := by
  induction calls with
  | nil => intro s; rfl
  | cons c rest ih =>
      intro s
      obtain ⟨m, p, o⟩ := c
      simp only [runClient, List.map, List.length, List.range', clientStep,
        nextId, buildRequest_id, ih (s + 1)]
      rfl

/-- `get_config` (client.py 347-358) delegates to `_call` with no params. -/
def getConfigRequest (rid : Nat) : JsonObj := buildRequest rid "memory.get_config" none

/-- Embeds `models.GlobalValue` (models.py 86-95): `namespace` and `found`
    are required, `id`, `value` and `updated_at` (wire alias `updatedAt`)
    default to null.  The model declares no validator tying `found` to the
    other fields. -/
structure GlobalValue where
  ns : String
  found : Bool
  id : Option String
  value : Option Json
  updated_at : Option String

def asStr : Option Json → Option String
  | some (.str s) => some s
  | _ => none

def asBool : Option Json → Option Bool
  | some (.bool b) => some b
  | _ => none

/-- Pydantic validation of a `get_global` result against `GlobalValue`
    (with `populate_by_name`, the alias `updatedAt` is tried before the field
    name `updated_at`); absent optional fields take their declared default
    of null. -/
def decodeGlobalValue (kvs : JsonObj) : Option GlobalValue :=
  match asStr (kvs.lookup "namespace"), asBool (kvs.lookup "found") with
  | some n, some f =>
      some
        { ns := n
          found := f
          id := asStr (kvs.lookup "id")
          value := match kvs.lookup "value" with
                   | some Json.null => none
                   | w => w
          updated_at := asStr ((kvs.lookup "updatedAt").orElse
                          (fun _ => kvs.lookup "updated_at")) }
  | _, _ => none

/-- A `datetime.datetime` as used by the facade: wall-clock fields plus an
    optional UTC offset in minutes (`None` for a naive value). -/
structure PyDatetime where
  year : Nat
  month : Nat
  day : Nat
  hour : Nat
  minute : Nat
  second : Nat
  tz : Option Int

def pad2 (n : Nat) : String := if n < 10 then "0" ++ toString n else toString n

def pad4 (n : Nat) : String :=
  if n < 10 then "000" ++ toString n
  else if n < 100 then "00" ++ toString n
  else if n < 1000 then "0" ++ toString n
  else toString n

/-- Embeds `dt.strftime("%Y-%m-%dT%H:%M:%SZ")`: the wall-clock fields are
    rendered directly and a literal Z is appended; the tz offset is not
    consulted. -/
def strftimeZ (d : PyDatetime) : String :=
  pad4 d.year ++ "-" ++ pad2 d.month ++ "-" ++ pad2 d.day ++ "T" ++
    pad2 d.hour ++ ":" ++ pad2 d.minute ++ ":" ++ pad2 d.second ++ "Z"

/-- A date/time argument of a facade operation: a string or a structured
    timestamp. -/
inductive DtArg where
  | str : String → DtArg
  | dt : PyDatetime → DtArg

/-- Embeds `_format_datetime` (client.py 61-67). -/
def formatDatetime : Option DtArg → Option String
  | none => none
  | some (.str s) => some s
  | some (.dt d) => some (strftimeZ d)

/-- `_format_datetime` on a present argument (the facade only formats
    arguments that were supplied). -/
def fmtDtArg : DtArg → String
  | .str s => s
  | .dt d => strftimeZ d

/-- Days since 1970-01-01 of a civil date (standard era-based algorithm,
    floor divisions).  Used to give timestamps an instant semantics. -/
def daysFromCivil (y : Int) (m d : Int) : Int :=
  let y2 := if m ≤ 2 then y - 1 else y
  let era := Int.fdiv y2 400
  let yoe := y2 - era * 400
  let mp := Int.fmod (m + 9) 12
  let doy := Int.fdiv (153 * mp + 2) 5 + d - 1
  let doe := yoe * 365 + Int.fdiv yoe 4 - Int.fdiv yoe 100 + doy
  era * 146097 + doe - 719468

/-- The instant a timezone-aware `PyDatetime` denotes, as seconds since the
    epoch: wall-clock seconds minus the UTC offset. -/
def instantSeconds (d : PyDatetime) : Int :=
  daysFromCivil d.year d.month d.day * 86400
    + ((d.hour : Int) * 3600 + (d.minute : Int) * 60 + (d.second : Int))
    - (d.tz.getD 0) * 60

/-- A list of strings as a JSON array. -/
def strArr : List String → JsonArr
  | [] => .nil
  | s :: t => .cons (.str s) (strArr t)

/-- The params dict assembled by `MCPMemoryClient.search` (client.py 227-239):
    `project_id`, `query`, `top_k` always; `group_id`, `tags`, `since`,
    `until` only when supplied. -/
def searchParams (pid q : String) (gid : Option String) (topK : Int)
    (tags : Option (List String)) (since_ until_ : Option DtArg) : JsonObj :=
  let d := ((JsonObj.nil.insertKV "project_id" (.str pid)).insertKV "query"
      (.str q)).insertKV "top_k" (.num topK)
  let d := match gid with | none => d | some g => d.insertKV "group_id" (.str g)
  let d := match tags with | none => d | some ts => d.insertKV "tags" (.arr (strArr ts))
  let d := match since_ with | none => d | some a => d.insertKV "since" (.str (fmtDtArg a))
  match until_ with | none => d | some a => d.insertKV "until" (.str (fmtDtArg a))

/-- The default of the `top_k` parameter in the signature of `search`. -/
def searchDefaultTopK : Int := 5

/-- The wire params of a `search` call: the assembled dict after the
    snake_case to camelCase transcoding done in `_call`. -/
def wireSearch (pid q : String) (gid : Option String) (topK : Int)
    (tags : Option (List String)) (since_ until_ : Option DtArg) : JsonObj :=
  convertKeysToCamel (searchParams pid q gid topK tags since_ until_)

/-- The `patch` dict assembled by `MCPMemoryClient.update` (client.py 292-304):
    one key per supplied optional argument, in declaration order. -/
def updatePatch (title text : Option String) (tags : Option (List String))
    (src gid : Option String) (md : Option Json) : JsonObj :=
  let p := JsonObj.nil
  let p := match title with | none => p | some t => p.insertKV "title" (.str t)
  let p := match text with | none => p | some t => p.insertKV "text" (.str t)
  let p := match tags with | none => p | some ts => p.insertKV "tags" (.arr (strArr ts))
  let p := match src with | none => p | some s => p.insertKV "source" (.str s)
  let p := match gid with | none => p | some g => p.insertKV "group_id" (.str g)
  match md with | none => p | some m => p.insertKV "metadata" m

/-- The params of `update`: `{"id": note_id, "patch": patch}` (client.py 306). -/
def updateParams (nid : String) (title text : Option String)
    (tags : Option (List String)) (src gid : Option String)
    (md : Option Json) : JsonObj :=
  (JsonObj.nil.insertKV "id" (.str nid)).insertKV "patch"
    (.obj (updatePatch title text tags src gid md))

/-- The wire params of an `update` call after transcoding. -/
def wireUpdate (nid : String) (title text : Option String)
    (tags : Option (List String)) (src gid : Option String)
    (md : Option Json) : JsonObj :=
  convertKeysToCamel (updateParams nid title text tags src gid md)

/-- The wire form of a transcoded patch dict. -/
def wirePatch (title text : Option String) (tags : Option (List String))
    (src gid : Option String) (md : Option Json) : JsonObj :=
  convObj defaultSkip (updatePatch title text tags src gid md) .nil

/-- The keys contributed to the wire patch by one optional argument. -/
def optK {α : Type} (o : Option α) (k : String) : List String :=
  match o with
  | none => []
  | some _ => [k]

lemma convList_strArr (ts : List String) :
    convList defaultSkip (strArr ts) = strArr ts := by
  induction ts with
  | nil => rfl
  | cons s t ih => simp [strArr, convList, convItem, ih]

/-- C1: the wire params are obtained by recursively transcoding every key from
    snake_case to camelCase, recursing into nested mappings and into mappings
    inside lists and leaving other values unchanged, except that the whole
    subtree under a key equal to `metadata` or `value` is emitted byte-identical
    to the input; sample keys transcode as group_id→groupId, top_k→topK,
    created_at→createdAt. -/
theorem c1_transcode_matches_spec :
    (∀ kvs : JsonObj, convertKeysToCamel kvs = specTranscode kvs)
    ∧ toCamelCase "group_id" = "groupId"
    ∧ toCamelCase "top_k" = "topK"
    ∧ toCamelCase "created_at" = "createdAt"
    ∧ (∀ (v : Json) (t acc : JsonObj),
        convObj defaultSkip (.cons "metadata" v t) acc
          = convObj defaultSkip t (acc.insertKV "metadata" v))
    ∧ (∀ (v : Json) (t acc : JsonObj),
        convObj defaultSkip (.cons "value" v t) acc
          = convObj defaultSkip t (acc.insertKV "value" v)) :=
  ⟨fun kvs => convObj_eq_specObj kvs .nil, rfl, rfl, rfl,
   fun _ _ _ => rfl, fun _ _ _ => rfl⟩

/-- C2: over any sequence of calls on one client instance, whatever each
    outcome is, the id member of the n-th request envelope is exactly n:
    the collected ids are 1, 2, ..., length. -/
theorem c2_request_ids_sequential (calls : List (String × Option JsonObj × HttpOutcome)) :
    (runClient 0 calls).map (fun e => JsonObj.lookup e "id")
      = (List.range' 1 calls.length).map
          (fun i : Nat => some (Json.num (Int.ofNat i))) :=
  runClient_ids calls 0

/-- C3: a call with no params mapping produces an envelope whose members are
    exactly jsonrpc, id and method, with no params member at all; in
    particular this holds for the get_config request. -/
theorem c3_no_params_member (rid : Nat) (method : String) :
    (buildRequest rid method none).keys = ["jsonrpc", "id", "method"]
    ∧ (buildRequest rid method none).lookup "params" = none
    ∧ getConfigRequest rid = buildRequest rid "memory.get_config" none
    ∧ (getConfigRequest rid).keys = ["jsonrpc", "id", "method"]
    ∧ (getConfigRequest rid).lookup "params" = none :=
  ⟨rfl, rfl, rfl, rfl, rfl⟩

/-- C4: each failing cause of a call maps to exactly one raised condition —
    connection failure to the connection error, deadline exceeded to the
    timeout error, non-2xx status and invalid JSON body to the generic
    transport error — and these conditions are pairwise distinct; every
    failing cause produces an error, never a result. -/
theorem c4_error_mapping :
    processResponse .connectError = .error .connectionError
    ∧ processResponse .timeoutError = .error .timeoutErr
    ∧ processResponse .statusError = .error .memoryError
    ∧ processResponse .invalidJson = .error .memoryError
    ∧ ClientError.connectionError ≠ ClientError.timeoutErr
    ∧ ClientError.connectionError ≠ ClientError.memoryError
    ∧ ClientError.timeoutErr ≠ ClientError.memoryError := by
  refine ⟨rfl, rfl, rfl, rfl, ?_, ?_, ?_⟩ <;> (intro h; cases h)

/-- C5 counterexample: a decoded body whose error member is null does contain
    an error member, yet `_call` does not raise the RPC-error condition with
    the default code and message there — `error.get` crashes with an uncaught
    AttributeError instead, refuting the claim quantified over every body
    containing an error member. -/
theorem c5_nonobject_error_counterexample :
    processResponse (.body (.cons "error" Json.null .nil))
      = .error .uncaughtAttrError
    ∧ processResponse (.body (.cons "error" Json.null .nil))
        ≠ .error (.rpc { code := .num (-32603), message := .str "Unknown error",
                         data := none }) := by
  refine ⟨rfl, ?_⟩
  intro h
  injection h with h2
  cases h2

/-- C5 amended: a decoded body whose error member is a dict raises the RPC
    error carrying the envelope code (default -32603), message (default
    "Unknown error") and data, and each code predicate of the raised error
    holds exactly for its numeric code; a non-dict error member instead
    escapes as an uncaught AttributeError, not as the RPC-error condition. -/
theorem c5_rpc_error_decode (body : JsonObj) (ekvs : JsonObj)
    (h : body.lookup "error" = some (.obj ekvs)) :
    (∃ err : RPCError,
      processResponse (.body body) = .error (.rpc err)
      ∧ err.code = (ekvs.lookup "code").getD (.num (-32603))
      ∧ err.message = (ekvs.lookup "message").getD (.str "Unknown error")
      ∧ err.data = ekvs.lookup "data"
      ∧ (err.is_invalid_key_pfx ↔ err.code = .num (-32003))
      ∧ (err.is_not_found ↔ err.code = .num (-32001))
      ∧ (err.is_api_key_missing ↔ err.code = .num (-32002))
      ∧ (err.is_method_not_found ↔ err.code = .num (-32601))
      ∧ (err.is_invalid_params ↔ err.code = .num (-32602)))
    ∧ (∀ body2 : JsonObj, body2.lookup "error" = some Json.null →
        processResponse (.body body2) = .error .uncaughtAttrError) := by
  constructor
  · refine ⟨{ code := (ekvs.lookup "code").getD (.num (-32603))
              message := (ekvs.lookup "message").getD (.str "Unknown error")
              data := ekvs.lookup "data" },
      ?_, rfl, rfl, rfl, Iff.rfl, Iff.rfl, Iff.rfl, Iff.rfl, Iff.rfl⟩
    simp only [processResponse]
    rw [h]
  · intro body2 h2
    simp only [processResponse]
    rw [h2]

/-- Witness for C5: the end-to-end scenario where the server answers with
    code -32003 — the caller observes an RPC failure whose invalid-key
    predicate is true. -/
theorem c5_rpc_error_decode_witness :
    ∃ err : RPCError,
      processResponse (.body (.cons "error"
          (.obj (.cons "code" (.num (-32003))
            (.cons "message" (.str "key must start with global.") .nil))) .nil))
        = .error (.rpc err)
      ∧ err.is_invalid_key_pfx := by
  obtain ⟨⟨err, h1, hcode, -, -, hpfx, -, -, -, -⟩, -⟩ :=
    c5_rpc_error_decode
      (.cons "error" (.obj (.cons "code" (.num (-32003))
        (.cons "message" (.str "key must start with global.") .nil))) .nil)
      (.cons "code" (.num (-32003))
        (.cons "message" (.str "key must start with global.") .nil))
      rfl
  exact ⟨err, h1, hpfx.mpr hcode⟩

/-- C6 counterexample: decoding a get_global body with found false that also
    carries id, value and updatedAt yields a GlobalValue with found false and
    all three fields populated — the decode enforces no invariant. -/
theorem c6_decode_counterexample :
    decodeGlobalValue (.cons "namespace" (.str "openai:model:1536")
        (.cons "found" (.bool false)
          (.cons "id" (.str "global-123")
            (.cons "value" (.str "v")
              (.cons "updatedAt" (.str "2024-01-15T10:30:00Z") .nil)))))
      = some { ns := "openai:model:1536", found := false, id := some "global-123",
               value := some (.str "v"),
               updated_at := some "2024-01-15T10:30:00Z" }
    ∧ (some "global-123" : Option String) ≠ none := by
  refine ⟨rfl, ?_⟩
  intro h
  cases h

/-- C6 amended: decoding preserves exactly the fields present in the
    response; a found = false body that omits id, value and updatedAt decodes
    with all three fields null, but the decoder applies no cross-field
    validation tying found to them. -/
theorem c6_found_false_defaults (n : String) :
    decodeGlobalValue (.cons "namespace" (.str n) (.cons "found" (.bool false) .nil))
      = some { ns := n, found := false, id := none, value := none,
               updated_at := none } := rfl

/-- C7: every search call sends topK (value 5 when the argument is left at
    its default), always sends projectId and query, and sends groupId, tags,
    since, until exactly when the corresponding argument is supplied. -/
theorem c7_search_params (pid q : String) (gid : Option String) (topK : Int)
    (tags : Option (List String)) (since_ until_ : Option DtArg) :
    (wireSearch pid q gid topK tags since_ until_).lookup "topK" = some (.num topK)
    ∧ (wireSearch pid q gid topK tags since_ until_).lookup "projectId"
        = some (.str pid)
    ∧ (wireSearch pid q gid topK tags since_ until_).lookup "query" = some (.str q)
    ∧ (wireSearch pid q gid topK tags since_ until_).lookup "groupId"
        = gid.map Json.str
    ∧ (wireSearch pid q gid topK tags since_ until_).lookup "tags"
        = tags.map (fun ts => Json.arr (strArr ts))
    ∧ (wireSearch pid q gid topK tags since_ until_).lookup "since"
        = since_.map (fun a => Json.str (fmtDtArg a))
    ∧ (wireSearch pid q gid topK tags since_ until_).lookup "until"
        = until_.map (fun a => Json.str (fmtDtArg a))
    ∧ (wireSearch pid q none searchDefaultTopK none none none).lookup "topK"
        = some (.num 5) := by
  cases gid <;> cases tags <;> cases since_ <;> cases until_ <;>
    refine ⟨rfl, rfl, rfl, rfl, ?_, rfl, rfl, rfl⟩ <;>
    first
      | rfl
      | exact congrArg (fun l => some (Json.arr l)) (convList_strArr _)

/-- C8: the wire params of update are exactly an id plus a nested patch
    object whose keys are exactly the supplied optional arguments (in wire
    casing); with only title supplied the patch is exactly the title entry. -/
theorem c8_update_patch (nid : String) (title text : Option String)
    (tags : Option (List String)) (src gid : Option String) (md : Option Json) :
    (wireUpdate nid title text tags src gid md).keys = ["id", "patch"]
    ∧ (wireUpdate nid title text tags src gid md).lookup "id" = some (.str nid)
    ∧ (wireUpdate nid title text tags src gid md).lookup "patch"
        = some (.obj (wirePatch title text tags src gid md))
    ∧ (wirePatch title text tags src gid md).keys
        = optK title "title" ++ optK text "text" ++ optK tags "tags" ++
          optK src "source" ++ optK gid "groupId" ++ optK md "metadata"
    ∧ (∀ t : String, (wireUpdate nid (some t) none none none none none).lookup "patch"
        = some (.obj (.cons "title" (.str t) .nil))) := by
  cases title <;> cases text <;> cases tags <;> cases src <;> cases gid <;> cases md <;>
    exact ⟨rfl, rfl, rfl, rfl, fun t => rfl⟩

/-- A timezone-aware timestamp at UTC offset +09:00. -/
def awareTokyo : PyDatetime :=
  { year := 2024, month := 1, day := 1, hour := 9, minute := 0, second := 0,
    tz := some 540 }

/-- The same instant with offset zero: its wall clock is the UTC rendering. -/
def awareUtc : PyDatetime :=
  { year := 2024, month := 1, day := 1, hour := 0, minute := 0, second := 0,
    tz := some 0 }

/-- C9: strings pass through unchanged, but a timezone-aware structured
    timestamp is rendered from its own wall clock with a literal Z and is not
    converted to UTC: awareTokyo and awareUtc denote the same instant, the
    correct UTC rendering is the one of awareUtc, yet the code emits a
    different string for awareTokyo. -/
theorem c9_datetime_not_utc :
    instantSeconds awareTokyo = instantSeconds awareUtc
    ∧ formatDatetime (some (.dt awareTokyo)) = some "2024-01-01T09:00:00Z"
    ∧ strftimeZ awareUtc = "2024-01-01T00:00:00Z"
    ∧ formatDatetime (some (.dt awareTokyo)) ≠ some (strftimeZ awareUtc)
    ∧ (∀ s : String, formatDatetime (some (.str s)) = some s) :=
  ⟨by decide, by decide, by decide, by decide, fun s => rfl⟩

/-- C10: the key transcoding is not injective — top_k and topK both map to
    topK, and a params mapping containing both at the same level transcodes to
    a single entry holding the value of the key iterated last. -/
theorem c10_camel_collision :
    toCamelCase "top_k" = toCamelCase "topK"
    ∧ convertKeysToCamel (.cons "top_k" (.str "a") (.cons "topK" (.str "b") .nil))
        = .cons "topK" (.str "b") .nil
    ∧ (JsonObj.cons "top_k" (.str "a") (.cons "topK" (.str "b") .nil)).keys.length = 2
    ∧ (convertKeysToCamel (.cons "top_k" (.str "a")
        (.cons "topK" (.str "b") .nil))).keys.length = 1
    ∧ (convertKeysToCamel (.cons "top_k" (.str "a")
        (.cons "topK" (.str "b") .nil))).lookup "topK" = some (.str "b") :=
  ⟨rfl, rfl, rfl, rfl, rfl⟩
